import Mathlib

/-!
Shallow embedding of the annotation-ingestion and confusion-matrix core of
`code/code_AVA/eval/get_ava_performance_bettergraphs.py`.

Modelling conventions:
* A CSV row is a `List String` of its comma-separated fields (the work of
  Python's `csv.reader`); a file of rows is a `List (List String)`.
* Python `float(...)` values never undergo arithmetic in the embedded code:
  they are parsed from decimal literals, stored, and at most re-formatted to
  three decimal places.  They are therefore modelled exactly as `Dec`, a pair
  (mantissa, number of decimal digits) denoting `m / 10^e`.  The model parser
  accepts plain signed decimal notation (the subset exercised by the data
  format); exotic spellings (exponents, inf/nan) are mapped to a parse
  failure, and general theorems take parse success as a hypothesis.
* Fatal Python exceptions (AssertionError on a bad column count, ValueError
  from `int`/`float`, KeyError from a dict lookup, IndexError from list or
  numpy indexing) are modelled by `Except PyErr`.
* `defaultdict(list)` maps are modelled as total functions `String → List _`
  (absent key = empty list); dict key sets, where iteration order matters,
  are modelled as first-occurrence-deduplicated lists.
-/

deriving instance DecidableEq for Except

namespace AvaEval

/-- The fatal error outcomes of the Python code. -/
inductive PyErr where
  /-- the `assert len(row) in [7, 8]` / `assert len(row) == 2` checks firing -/
  | wrongColumns : PyErr
  /-- `int(...)` or `float(...)` applied to an unparseable string -/
  | valueError : PyErr
  /-- a dict lookup `d[k]` with `k` not a key of `d` -/
  | keyError : String → PyErr
  /-- a list / numpy index out of range -/
  | indexError : PyErr
deriving DecidableEq, Repr

/-- An exact decimal value `m / 10 ^ e`: the value denoted by a decimal
literal, modelling a Python float that is only ever parsed, stored and
re-formatted (never computed with). -/
structure Dec where
  m : Int
  e : Nat
deriving DecidableEq, Repr

/-- The decimal digit character for `d < 10`. -/
def digitChar (d : Nat) : Char := Char.ofNat (48 + d)

/-- Decimal digits of `n`, most significant first (`fuel`-bounded recursion). -/
def natDigitsAux : Nat → Nat → List Char
  | 0, _ => []
  | fuel + 1, n =>
    if n < 10 then [digitChar n]
    else natDigitsAux fuel (n / 10) ++ [digitChar (n % 10)]

/-- Decimal rendering of a natural number. -/
def natToStr (n : Nat) : String := String.mk (natDigitsAux (n + 1) n)

/-- Left-pad a string with zeros to width `k` (no-op when already wide). -/
def zpad (k : Nat) (s : String) : String :=
  String.mk (List.replicate (k - s.length) '0') ++ s

/-- Value of a list of decimal digit characters, most significant first. -/
def digitsVal (l : List Char) : Nat :=
  l.foldl (fun a c => 10 * a + (c.toNat - 48)) 0

/-- Model of Python `int(s)` on a string: optional sign then decimal digits. -/
def str2int (s : String) : Option Int :=
  let p : Bool × List Char :=
    match s.toList with
    | '-' :: t => (true, t)
    | '+' :: t => (false, t)
    | t => (false, t)
  if p.2.isEmpty || !(p.2.all Char.isDigit) then none
  else
    let m : Int := Int.ofNat (digitsVal p.2)
    some (if p.1 then -m else m)

/-- Split a character list at its (single) decimal point, if well formed. -/
def splitDot (cs : List Char) : Option (List Char × List Char) :=
  match cs.span (fun c => c != '.') with
  | (pre, []) => some (pre, [])
  | (pre, _ :: post) => if post.contains '.' then none else some (pre, post)

/-- Model of Python `float(s)` on a plain signed decimal literal, returning
the exact decimal value. -/
def str2float (s : String) : Option Dec :=
  let p : Bool × List Char :=
    match s.toList with
    | '-' :: t => (true, t)
    | '+' :: t => (false, t)
    | t => (false, t)
  match splitDot p.2 with
  | none => none
  | some (ip, fp) =>
    if (ip.isEmpty && fp.isEmpty) || !(ip.all Char.isDigit) || !(fp.all Char.isDigit) then
      none
    else
      let m : Int := Int.ofNat (digitsVal (ip ++ fp))
      some ⟨if p.1 then -m else m, fp.length⟩

/-- Python `s.lstrip("0")`: drop every leading `'0'`. -/
def lstripZeros (s : String) : String :=
  String.mk (s.toList.dropWhile (fun c => c == '0'))

/-- Python `"%04d" % n`: sign, then digits zero-padded to total width 4. -/
def pad4 (n : Int) : String :=
  if n < 0 then "-" ++ zpad 3 (natToStr n.natAbs) else zpad 4 (natToStr n.natAbs)

/-- `make_image_key(video_id, timestamp)`:
`"%s,%04d" % (video_id, int(timestamp))`; `none` models the ValueError of
`int` on an unparseable timestamp. -/
def make_image_key (video_id timestamp : String) : Option String :=
  (str2int timestamp).map (fun n => video_id ++ "," ++ pad4 n)

/-- `row[i]` (in the code every access is guarded by a length check, so the
`""` default is never produced at a use site). -/
def field (r : List String) (i : Nat) : String := (r.get? i).getD ""

/-- Append `v` to the entry of `k` in a `defaultdict(list)` modelled as a
total function. -/
def appendAt {α : Type} (m : String → List α) (k : String) (v : α) :
    String → List α :=
  fun k' => if k' = k then m k' ++ [v] else m k'

/-- The triple of `defaultdict(list)` maps built by `read_csv`. -/
structure CsvMaps where
  boxes : String → List (List Dec)
  labels : String → List Int
  scores : String → List Dec

/-- The empty `read_csv` state. -/
def emptyMaps : CsvMaps := ⟨fun _ => [], fun _ => [], fun _ => []⟩

/-- The test `class_whitelist and action_id not in class_whitelist` guarding
the `continue`: true exactly when the whitelist is truthy (present and
non-empty) and the label is not a member. -/
def whitelistSkip (cw : Option (List Int)) (action_id : Int) : Bool :=
  match cw with
  | some w => !w.isEmpty && !w.contains action_id
  | none => false

/-- One iteration of the `read_csv` row loop, in the order the Python code
performs the work: column-count assert, `make_image_key` (parsing the
timestamp), the four box floats, the label int, the whitelist test, then the
optional score float and the three appends. -/
def stepRow (cw : Option (List Int)) (r : List String) (acc : CsvMaps) :
    Except PyErr CsvMaps :=
  if r.length = 7 ∨ r.length = 8 then
    match make_image_key (field r 0) (field r 1) with
    | none => .error .valueError
    | some image_key =>
      match str2float (field r 2), str2float (field r 3),
            str2float (field r 4), str2float (field r 5) with
      | some x1, some y1, some x2, some y2 =>
        match str2int (field r 6) with
        | none => .error .valueError
        | some action_id =>
          if whitelistSkip cw action_id then .ok acc
          else
            match (if r.length = 8 then str2float (field r 7) else some ⟨1, 0⟩) with
            | none => .error .valueError
            | some score =>
              .ok ⟨appendAt acc.boxes image_key [y1, x1, y2, x2],
                   appendAt acc.labels image_key action_id,
                   appendAt acc.scores image_key score⟩
      | _, _, _, _ => .error .valueError
  else .error .wrongColumns

/-- The `read_csv` row loop. -/
def read_csv_aux (cw : Option (List Int)) :
    List (List String) → CsvMaps → Except PyErr CsvMaps
  | [], acc => .ok acc
  | r :: rest, acc =>
    match stepRow cw r acc with
    | .error e => .error e
    | .ok acc' => read_csv_aux cw rest acc'

/-- `read_csv(csv_file, class_whitelist)` over the file's parsed rows. -/
def read_csv (rows : List (List String)) (cw : Option (List Int)) :
    Except PyErr CsvMaps :=
  read_csv_aux cw rows emptyMaps

/-- The `boxes` map of a successful `read_csv`, sampled at one key. -/
def csvBoxesAt (rows : List (List String)) (cw : Option (List Int))
    (k : String) : Except PyErr (List (List Dec)) :=
  match read_csv rows cw with
  | .error e => .error e
  | .ok m => .ok (m.boxes k)

/-- The `labels` map of a successful `read_csv`, sampled at one key. -/
def csvLabelsAt (rows : List (List String)) (cw : Option (List Int))
    (k : String) : Except PyErr (List Int) :=
  match read_csv rows cw with
  | .error e => .error e
  | .ok m => .ok (m.labels k)

/-- The `scores` map of a successful `read_csv`, sampled at one key. -/
def csvScoresAt (rows : List (List String)) (cw : Option (List Int))
    (k : String) : Except PyErr (List Dec) :=
  match read_csv rows cw with
  | .error e => .error e
  | .ok m => .ok (m.scores k)

/-- Whether an `Except` computation finished without a fatal error. -/
def exceptOk {ε α : Type} : Except ε α → Bool
  | .ok _ => true
  | .error _ => false

/-- The `read_exclusions` row loop: `assert len(row) == 2`, then add the
image key to the set (modelled as a deduplicated list). -/
def read_exclusions_aux : List (List String) → List String →
    Except PyErr (List String)
  | [], acc => .ok acc
  | r :: rest, acc =>
    if r.length = 2 then
      match make_image_key (field r 0) (field r 1) with
      | none => .error .valueError
      | some k => read_exclusions_aux rest (if k ∈ acc then acc else acc ++ [k])
    else .error .wrongColumns

/-- `read_exclusions(exclusions_file)`: an absent (falsy) file yields the
empty set without reading anything. -/
def read_exclusions (src : Option (List (List String))) :
    Except PyErr (List String) :=
  match src with
  | none => .ok []
  | some rows => read_exclusions_aux rows []

/-- Round-half-even of `m / d` for `d > 0`, via floor division and remainder
(the rounding Python's fixed-point float formatting applies). -/
def roundHE (m d : Int) : Int :=
  let q := Int.ediv m d
  let r := Int.emod m d
  if 2 * r < d then q
  else if 2 * r > d then q + 1
  else if Int.emod q 2 = 0 then q else q + 1

/-- Python `"{:.3f}".format(x)` on the exact decimal `x`: round the value to
an integer count of thousandths, then render sign, integer part, a dot, and
the three-digit fraction.  (On a binary float an exact decimal tie in the 4th
place can round differently; no input of interest sits on such a tie.) -/
def fmt3 (x : Dec) : String :=
  let n : Int :=
    if x.e ≤ 3 then x.m * (10 : Int) ^ (3 - x.e)
    else roundHE x.m ((10 : Int) ^ (x.e - 3))
  (if x.m < 0 then "-" else "") ++
    natToStr (n.natAbs / 1000) ++ "." ++ zpad 3 (natToStr (n.natAbs % 1000))

/-- The composite key `video + "@" + kf.lstrip("0") + "@" + bbs` built (the
same way, twice per file) inside `confusion_matrix`, where `bbs` joins the
four box coordinates formatted to three decimals with `"@"`.  Reading a row
shorter than 6 fields is the IndexError of `row[0]`..`row[5]`; an unparseable
coordinate is the ValueError of `float`. -/
def matchKey (r : List String) : Except PyErr String :=
  if 6 ≤ r.length then
    match str2float (field r 2), str2float (field r 3),
          str2float (field r 4), str2float (field r 5) with
    | some b2, some b3, some b4, some b5 =>
      .ok (field r 0 ++ "@" ++ lstripZeros (field r 1) ++ "@" ++
           fmt3 b2 ++ "@" ++ fmt3 b3 ++ "@" ++ fmt3 b4 ++ "@" ++ fmt3 b5)
    | _, _, _, _ => .error .valueError
  else .error .indexError

/-- First pass over a file in `confusion_matrix`: register every `matchKey`
as a dict key (`d[i] = []`), keeping first-occurrence order. -/
def registerKeys : List (List String) → List String → Except PyErr (List String)
  | [], acc => .ok acc
  | r :: rest, acc =>
    match matchKey r with
    | .error e => .error e
    | .ok k => registerKeys rest (if k ∈ acc then acc else acc ++ [k])

/-- Second pass over a file in `confusion_matrix`: append `row[6]` (as a raw
string) to the act list of the row's key.  `row[6]` on a 6-field row is an
IndexError. -/
def appendActs : List (List String) → (String → List String) →
    Except PyErr (String → List String)
  | [], acc => .ok acc
  | r :: rest, acc =>
    match matchKey r with
    | .error e => .error e
    | .ok k =>
      if 7 ≤ r.length then appendActs rest (appendAt acc k (field r 6))
      else .error .indexError

/-- The pose scan `for a in acts: if int(a) <= 10: pose = int(a) - 1` with
accumulator `p` (started at the sentinel `-1`); `int` on an unparseable act
string is a ValueError. -/
def scanPose : List String → Int → Except PyErr Int
  | [], p => .ok p
  | a :: rest, p =>
    match str2int a with
    | none => .error .valueError
    | some v => scanPose rest (if v ≤ 10 then v - 1 else p)

/-- numpy indexing of axis length 10: indices in `[-10, 10)` are accepted,
negative ones wrapping around; anything else is an IndexError. -/
def npIndex (i : Int) : Except PyErr (Fin 10) :=
  if -10 ≤ i ∧ i < 10 then
    .ok ⟨(Int.emod i 10).toNat, by
      have h1 : 0 ≤ Int.emod i 10 := Int.emod_nonneg i (by norm_num)
      have h2 : Int.emod i 10 < 10 := Int.emod_lt_of_pos i (by norm_num)
      omega⟩
  else .error .indexError

/-- The 10×10 pose confusion matrix (`np.zeros([10, 10], np.int32)`; counts
are modelled as naturals, the int32 width never being approached by the
increments at stake). -/
def Cm : Type := Fin 10 → Fin 10 → Nat

/-- The all-zero matrix. -/
def zeroCm : Cm := fun _ _ => 0

/-- `cm[i, j] += 1`. -/
def bump (cm : Cm) (i j : Fin 10) : Cm :=
  fun a b => if a = i ∧ b = j then cm a b + 1 else cm a b

/-- The main loop of `confusion_matrix`: for each ground-truth key (in dict
order), `det_acts = det_dict[key]` (KeyError when the key was never
registered from the detections), the two pose scans, and — when neither side
is left at the sentinel — the two symmetric increments. -/
def processKeys (dkeys : List String) (gacts dacts : String → List String) :
    List String → Cm → Except PyErr Cm
  | [], cm => .ok cm
  | k :: rest, cm =>
    if k ∈ dkeys then
      match scanPose (gacts k) (-1) with
      | .error e => .error e
      | .ok gp =>
        match scanPose (dacts k) (-1) with
        | .error e => .error e
        | .ok dp =>
          if gp ≠ -1 ∧ dp ≠ -1 then
            match npIndex gp with
            | .error e => .error e
            | .ok gi =>
              match npIndex dp with
              | .error e => .error e
              | .ok di =>
                processKeys dkeys gacts dacts rest (bump (bump cm gi di) di gi)
          else processKeys dkeys gacts dacts rest cm
    else .error (.keyError k)

/-- `confusion_matrix(groundtruth, detections, x_axis)` over the two files'
parsed rows (the `x_axis` argument is unused by the original code).  The
passes run in the code's order: ground-truth key registration, ground-truth
act appends, detection key registration, detection act appends, main loop. -/
def confusion_matrix (groundtruth detections : List (List String)) :
    Except PyErr Cm :=
  match registerKeys groundtruth [] with
  | .error e => .error e
  | .ok gkeys =>
    match appendActs groundtruth (fun _ => []) with
    | .error e => .error e
    | .ok gacts =>
      match registerKeys detections [] with
      | .error e => .error e
      | .ok dkeys =>
        match appendActs detections (fun _ => []) with
        | .error e => .error e
        | .ok dacts => processKeys dkeys gacts dacts gkeys zeroCm

/-- One cell of the matrix produced by `confusion_matrix`. -/
def cmEntry (groundtruth detections : List (List String)) (i j : Fin 10) :
    Except PyErr Nat :=
  match confusion_matrix groundtruth detections with
  | .error e => .error e
  | .ok cm => .ok (cm i j)

/-- Whether an `Except` computation failed with a missing-key error. -/
def isKeyError {α : Type} : Except PyErr α → Bool
  | .error (.keyError _) => true
  | _ => false

/-- The pose index the code's overwrite loop is claimed to produce: `-1` when
no act of the list is in the pose band, else the last pose-band act minus 1.
Stated independently of the loop, via `List.getLast?`. -/
def lastPose (vs : List Int) : Int :=
  match (vs.filter (fun v => decide (v ≤ 10))).getLast? with
  | some v => v - 1
  | none => -1

/-- Whether a row passes the `read_csv` column-count assert. -/
def wfCount (r : List String) : Bool := r.length == 7 || r.length == 8

/-- Whether every conversion `read_csv` applies to a row succeeds: the
timestamp and label ints, the four box floats, and — on an 8-field row — the
score float. -/
def parseOkRow (r : List String) : Bool :=
  (str2int (field r 1)).isSome && (str2float (field r 2)).isSome &&
  (str2float (field r 3)).isSome && (str2float (field r 4)).isSome &&
  (str2float (field r 5)).isSome && (str2int (field r 6)).isSome &&
  (r.length != 8 || (str2float (field r 7)).isSome)

/-- The conversions `read_csv` applies to a row before the whitelist test
(the score float is only parsed after it). -/
def skipRowOk (r : List String) : Bool :=
  (str2int (field r 1)).isSome && (str2float (field r 2)).isSome &&
  (str2float (field r 3)).isSome && (str2float (field r 4)).isSome &&
  (str2float (field r 5)).isSome

/-- Whether a (well-formed) row survives `read_csv`'s whitelist filter and
lands at image key `k`. -/
def keptRow (cw : Option (List Int)) (k : String) (r : List String) : Bool :=
  decide (make_image_key (field r 0) (field r 1) = some k) &&
  !(whitelistSkip cw ((str2int (field r 6)).getD 0))

/-- The box a (well-formed) row stores: input order (x1, y1, x2, y2) at
fields 2..5, stored as [y1, x1, y2, x2]. -/
def rowBoxD (r : List String) : List Dec :=
  [(str2float (field r 3)).getD ⟨0, 0⟩, (str2float (field r 2)).getD ⟨0, 0⟩,
   (str2float (field r 5)).getD ⟨0, 0⟩, (str2float (field r 4)).getD ⟨0, 0⟩]

/-- The label a (well-formed) row stores. -/
def rowLabelD (r : List String) : Int := (str2int (field r 6)).getD 0

/-- The score a (well-formed) row stores: field 7 when present, else 1.0. -/
def rowScoreD (r : List String) : Dec :=
  if r.length = 8 then (str2float (field r 7)).getD ⟨1, 0⟩ else ⟨1, 0⟩

/-- Whether a row is fully digestible by `confusion_matrix`: at least 7
fields, parseable box coordinates, and a parseable, non-negative act id
(every AVA category id is positive). -/
def wfCmRow (r : List String) : Bool :=
  decide (7 ≤ r.length) && (str2float (field r 2)).isSome &&
  (str2float (field r 3)).isSome && (str2float (field r 4)).isSome &&
  (str2float (field r 5)).isSome &&
  (match str2int (field r 6) with
   | some v => decide (0 ≤ v)
   | none => false)

/-! ### Shared lemmas -/

lemma whitelistSkip_empty : whitelistSkip (some []) = whitelistSkip none :=
  funext fun _ => rfl

lemma stepRow_empty_wl (r : List String) (acc : CsvMaps) :
    stepRow (some []) r acc = stepRow none r acc := by
  unfold stepRow
  rw [whitelistSkip_empty]

lemma read_csv_aux_empty_wl : ∀ (rows : List (List String)) (acc : CsvMaps),
    read_csv_aux (some []) rows acc = read_csv_aux none rows acc := by
  intro rows
  induction rows with
  | nil => intro acc; rfl
  | cons r rest ih =>
    intro acc
    simp only [read_csv_aux, stepRow_empty_wl]
    cases h : stepRow none r acc with
    | error e => rfl
    | ok acc' => exact ih acc'

lemma bump_apply (cm : Cm) (i j a b : Fin 10) :
    bump cm i j a b = cm a b + (if a = i ∧ b = j then 1 else 0) := by
  simp only [bump]
  split_ifs <;> simp

lemma bump2_symm (cm : Cm) (hs : ∀ i j, cm i j = cm j i) (gi di : Fin 10)
    (a b : Fin 10) :
    bump (bump cm gi di) di gi a b = bump (bump cm gi di) di gi b a := by
  rw [bump_apply, bump_apply, bump_apply, bump_apply, hs a b]
  rw [if_congr (Iff.intro (fun h => And.intro h.2 h.1) (fun h => And.intro h.2 h.1)) rfl rfl]
  rw [show (if b = gi ∧ a = di then 1 else 0) = (if a = di ∧ b = gi then 1 else 0) from
    if_congr (Iff.intro (fun h => And.intro h.2 h.1) (fun h => And.intro h.2 h.1)) rfl rfl]
  ring

lemma processKeys_symm (dkeys : List String) (gacts dacts : String → List String) :
    ∀ (ks : List String) (cm : Cm), (∀ i j, cm i j = cm j i) →
    ∀ m, processKeys dkeys gacts dacts ks cm = .ok m → ∀ i j, m i j = m j i := by
  intro ks
  induction ks with
  | nil =>
    intro cm hs m hm
    simp only [processKeys] at hm
    injection hm with h
    subst h
    exact hs
  | cons k rest ih =>
    intro cm hs m hm
    simp only [processKeys] at hm
    split at hm
    · split at hm
      · exact Except.noConfusion hm
      · split at hm
        · exact Except.noConfusion hm
        · split at hm
          · split at hm
            · exact Except.noConfusion hm
            · split at hm
              · exact Except.noConfusion hm
              · exact ih _ (fun i j => bump2_symm cm hs _ _ i j) m hm
          · exact ih cm hs m hm
    · exact Except.noConfusion hm

lemma scanPose_eq_lastPose :
    ∀ {acts : List String} {vs : List Int},
    List.Forall₂ (fun a v => str2int a = some v) acts vs →
    ∀ p : Int, scanPose acts p =
      .ok (match (vs.filter (fun v => decide (v ≤ 10))).getLast? with
           | some v => v - 1
           | none => p) := by
  intro acts vs h
  induction h with
  | nil => intro p; rfl
  | @cons a v acts' vs' ha htail ih =>
    intro p
    simp only [scanPose, ha]
    by_cases hv : v ≤ 10
    · rw [if_pos hv]
      rw [List.filter_cons_of_pos (by simpa using hv)]
      cases hl : (vs'.filter (fun v => decide (v ≤ 10))).getLast? with
      | none =>
        have hnil : vs'.filter (fun v => decide (v ≤ 10)) = [] :=
          List.getLast?_eq_none_iff.mp hl
        rw [hnil, List.getLast?_singleton]
        have := ih (v - 1)
        rw [hl] at this
        exact this
      | some w =>
        have hne : vs'.filter (fun v => decide (v ≤ 10)) ≠ [] := by
          intro hc; rw [hc] at hl; exact Option.noConfusion hl
        obtain ⟨b, t, hbt⟩ := List.exists_cons_of_ne_nil hne
        rw [hbt, List.getLast?_cons_cons]
        rw [hbt] at hl
        rw [hl]
        have := ih (v - 1)
        rw [hbt, hl] at this
        exact this
    · rw [if_neg hv]
      rw [List.filter_cons_of_neg (by simpa using hv)]
      exact ih p

lemma whitelistSkip_true_iff (w : List Int) (a : Int) :
    whitelistSkip (some w) a = true ↔ w ≠ [] ∧ a ∉ w := by
  simp [whitelistSkip, List.elem_iff, List.contains]

lemma npIndex_ok (i : Int) (h1 : -10 ≤ i) (h2 : i < 10) :
    ∃ fi : Fin 10, npIndex i = .ok fi := by
  simp only [npIndex]
  rw [if_pos (And.intro h1 h2)]
  exact ⟨_, rfl⟩

lemma matchKey_ok_of_wf (r : List String) (h : wfCmRow r = true) :
    ∃ k, matchKey r = .ok k := by
  simp only [wfCmRow, Bool.and_eq_true, decide_eq_true_eq,
    Option.isSome_iff_exists] at h
  obtain ⟨⟨⟨⟨⟨h7, ⟨b2, hb2⟩⟩, ⟨b3, hb3⟩⟩, ⟨b4, hb4⟩⟩, ⟨b5, hb5⟩⟩, _⟩ := h
  simp only [matchKey]
  rw [if_pos (by omega)]
  rw [hb2, hb3, hb4, hb5]
  exact ⟨_, rfl⟩

lemma wfCmRow_len (r : List String) (h : wfCmRow r = true) : 7 ≤ r.length := by
  simp only [wfCmRow, Bool.and_eq_true, decide_eq_true_eq] at h
  exact h.1.1.1.1.1

lemma wfCmRow_act (r : List String) (h : wfCmRow r = true) :
    ∃ v, str2int (field r 6) = some v ∧ 0 ≤ v := by
  simp only [wfCmRow, Bool.and_eq_true] at h
  have h6 := h.2
  cases h6m : str2int (field r 6) with
  | none => rw [h6m] at h6; exact Bool.noConfusion h6
  | some v =>
    rw [h6m] at h6
    exact ⟨v, rfl, by simpa using h6⟩

/-- Every act accumulated by `appendActs` over well-formed rows parses to a
non-negative int. -/
def ActsOk (f : String → List String) : Prop :=
  ∀ k a, a ∈ f k → ∃ v, str2int a = some v ∧ 0 ≤ v

lemma actsOk_empty : ActsOk (fun _ => []) := by
  intro k a ha
  exact absurd ha (List.not_mem_nil a)

lemma appendActs_ok : ∀ (rows : List (List String)) (acc : String → List String),
    (∀ r ∈ rows, wfCmRow r = true) → ActsOk acc →
    ∃ ga, appendActs rows acc = .ok ga ∧ ActsOk ga := by
  intro rows
  induction rows with
  | nil => intro acc _ hP; exact ⟨acc, rfl, hP⟩
  | cons r rest ih =>
    intro acc hwf hP
    have hr := hwf r (List.mem_cons_self r rest)
    obtain ⟨k, hk⟩ := matchKey_ok_of_wf r hr
    simp only [appendActs, hk]
    rw [if_pos (wfCmRow_len r hr)]
    apply ih _ (fun r' hr' => hwf r' (List.mem_cons_of_mem _ hr'))
    intro k' a ha
    simp only [appendAt] at ha
    by_cases hk' : k' = k
    · rw [if_pos hk'] at ha
      rcases List.mem_append.mp ha with h | h
      · exact hP k' a h
      · have : a = field r 6 := by simpa using h
        subst this
        exact wfCmRow_act r hr
    · rw [if_neg hk'] at ha
      exact hP k' a ha

lemma scanPose_ok : ∀ (acts : List String),
    (∀ a ∈ acts, ∃ v, str2int a = some v ∧ 0 ≤ v) →
    ∀ p : Int, -1 ≤ p → p ≤ 9 →
    ∃ q, scanPose acts p = .ok q ∧ -1 ≤ q ∧ q ≤ 9 := by
  intro acts
  induction acts with
  | nil => intro _ p h1 h2; exact ⟨p, rfl, h1, h2⟩
  | cons a rest ih =>
    intro hall p h1 h2
    obtain ⟨v, hv, hv0⟩ := hall a (List.mem_cons_self a rest)
    simp only [scanPose, hv]
    by_cases hle : v ≤ 10
    · rw [if_pos hle]
      exact ih (fun a' ha' => hall a' (List.mem_cons_of_mem _ ha')) (v - 1)
        (by omega) (by omega)
    · rw [if_neg hle]
      exact ih (fun a' ha' => hall a' (List.mem_cons_of_mem _ ha')) p h1 h2

/-- Both pose scans succeed at every key, with in-band results. -/
def ScansOk (gacts dacts : String → List String) : Prop :=
  ∀ k, (∃ gp, scanPose (gacts k) (-1) = .ok gp ∧ -1 ≤ gp ∧ gp ≤ 9) ∧
       (∃ dp, scanPose (dacts k) (-1) = .ok dp ∧ -1 ≤ dp ∧ dp ≤ 9)

lemma processKeys_ok (dkeys : List String) (gacts dacts : String → List String)
    (hsc : ScansOk gacts dacts) :
    ∀ (ks : List String) (cm : Cm), (∀ k ∈ ks, k ∈ dkeys) →
    ∃ m, processKeys dkeys gacts dacts ks cm = .ok m := by
  intro ks
  induction ks with
  | nil => intro cm _; exact ⟨cm, rfl⟩
  | cons k rest ih =>
    intro cm hall
    obtain ⟨⟨gp, hgp, hgp1, hgp2⟩, ⟨dp, hdp, hdp1, hdp2⟩⟩ := hsc k
    simp only [processKeys]
    rw [if_pos (hall k (List.mem_cons_self k rest))]
    simp only [hgp, hdp]
    by_cases hc : gp ≠ -1 ∧ dp ≠ -1
    · rw [if_pos hc]
      obtain ⟨gi, hgi⟩ := npIndex_ok gp (by omega) (by omega)
      obtain ⟨di, hdi⟩ := npIndex_ok dp (by omega) (by omega)
      simp only [hgi, hdi]
      exact ih _ (fun k' hk' => hall k' (List.mem_cons_of_mem _ hk'))
    · rw [if_neg hc]
      exact ih _ (fun k' hk' => hall k' (List.mem_cons_of_mem _ hk'))

lemma processKeys_keyError (dkeys : List String) (gacts dacts : String → List String)
    (hsc : ScansOk gacts dacts) :
    ∀ (ks : List String) (cm : Cm), (∃ k ∈ ks, k ∉ dkeys) →
    isKeyError (processKeys dkeys gacts dacts ks cm) = true := by
  intro ks
  induction ks with
  | nil => intro cm h; obtain ⟨k, hk, _⟩ := h; exact absurd hk (List.not_mem_nil k)
  | cons k rest ih =>
    intro cm hex
    simp only [processKeys]
    by_cases hk : k ∈ dkeys
    · rw [if_pos hk]
      obtain ⟨⟨gp, hgp, hgp1, hgp2⟩, ⟨dp, hdp, hdp1, hdp2⟩⟩ := hsc k
      simp only [hgp, hdp]
      have hrest : ∃ k' ∈ rest, k' ∉ dkeys := by
        obtain ⟨k0, hk0mem, hk0⟩ := hex
        rcases List.mem_cons.mp hk0mem with rfl | hmem
        · exact absurd hk hk0
        · exact ⟨k0, hmem, hk0⟩
      by_cases hc : gp ≠ -1 ∧ dp ≠ -1
      · rw [if_pos hc]
        obtain ⟨gi, hgi⟩ := npIndex_ok gp (by omega) (by omega)
        obtain ⟨di, hdi⟩ := npIndex_ok dp (by omega) (by omega)
        simp only [hgi, hdi]
        exact ih _ hrest
      · rw [if_neg hc]
        exact ih _ hrest
    · rw [if_neg hk]
      rfl

lemma stepRow_wrongColumns (cw : Option (List Int)) (r : List String) (acc : CsvMaps)
    (h : wfCount r = false) : stepRow cw r acc = .error .wrongColumns := by
  simp only [stepRow]
  rw [if_neg]
  simp only [wfCount, Bool.or_eq_false_iff, beq_eq_false_iff_ne, ne_eq] at h
  intro hc
  rcases hc with hc | hc
  · exact h.1 hc
  · exact h.2 hc

lemma stepRow_ok_of_parse (cw : Option (List Int)) (r : List String) (acc : CsvMaps)
    (hc : wfCount r = true) (hp : parseOkRow r = true) :
    ∃ acc', stepRow cw r acc = .ok acc' := by
  simp only [parseOkRow, Bool.and_eq_true, Option.isSome_iff_exists] at hp
  obtain ⟨⟨⟨⟨⟨⟨⟨n1, h1⟩, ⟨b2, h2⟩⟩, ⟨b3, h3⟩⟩, ⟨b4, h4⟩⟩, ⟨b5, h5⟩⟩, ⟨a6, h6⟩⟩, h7⟩ := hp
  have hlen : r.length = 7 ∨ r.length = 8 := by
    simp only [wfCount, Bool.or_eq_true, beq_iff_eq] at hc
    exact hc
  simp only [stepRow]
  rw [if_pos hlen]
  simp only [make_image_key, h1, Option.map_some', h2, h3, h4, h5, h6]
  by_cases hsk : whitelistSkip cw a6 = true
  · rw [if_pos hsk]; exact ⟨acc, rfl⟩
  · rw [if_neg hsk]
    by_cases h8 : r.length = 8
    · rw [if_pos h8]
      simp only [h8] at h7
      simp only [bne_self_eq_false, Bool.false_or, Option.isSome_iff_exists] at h7
      obtain ⟨sc, hsc⟩ := h7
      rw [hsc]
      exact ⟨_, rfl⟩
    · rw [if_neg h8]
      exact ⟨_, rfl⟩

lemma read_csv_aux_wrongColumns_iff (cw : Option (List Int)) :
    ∀ (rows : List (List String)) (acc : CsvMaps),
    (∀ r ∈ rows, wfCount r = true → parseOkRow r = true) →
    ((read_csv_aux cw rows acc = .error .wrongColumns) ↔
      ∃ r ∈ rows, wfCount r = false) := by
  intro rows
  induction rows with
  | nil =>
    intro acc _
    simp [read_csv_aux]
  | cons r rest ih =>
    intro acc hp
    have htail : ∀ r' ∈ rest, wfCount r' = true → parseOkRow r' = true :=
      fun r' hr' => hp r' (List.mem_cons_of_mem _ hr')
    simp only [read_csv_aux]
    cases hcw : wfCount r with
    | true =>
      obtain ⟨acc', hacc'⟩ := stepRow_ok_of_parse cw r acc hcw
        (hp r (List.mem_cons_self r rest) hcw)
      rw [hacc']
      constructor
      · intro h
        obtain ⟨r', hmem, hr'⟩ := (ih acc' htail).mp h
        exact ⟨r', List.mem_cons_of_mem _ hmem, hr'⟩
      · rintro ⟨r', hmem, hr'⟩
        rcases List.mem_cons.mp hmem with rfl | hmem'
        · rw [hcw] at hr'; exact Bool.noConfusion hr'
        · exact (ih acc' htail).mpr ⟨r', hmem', hr'⟩
    | false =>
      rw [stepRow_wrongColumns cw r acc hcw]
      constructor
      · intro _
        exact ⟨r, List.mem_cons_self r rest, hcw⟩
      · intro _
        rfl

lemma read_exclusions_aux_wrongColumns_iff :
    ∀ (rows : List (List String)) (acc : List String),
    (∀ r ∈ rows, r.length = 2 → (str2int (field r 1)).isSome = true) →
    ((read_exclusions_aux rows acc = .error .wrongColumns) ↔
      ∃ r ∈ rows, r.length ≠ 2) := by
  intro rows
  induction rows with
  | nil =>
    intro acc _
    simp [read_exclusions_aux]
  | cons r rest ih =>
    intro acc hp
    have htail : ∀ r' ∈ rest, r'.length = 2 → (str2int (field r' 1)).isSome = true :=
      fun r' hr' => hp r' (List.mem_cons_of_mem _ hr')
    simp only [read_exclusions_aux]
    by_cases h2 : r.length = 2
    · rw [if_pos h2]
      have := hp r (List.mem_cons_self r rest) h2
      obtain ⟨n, hn⟩ := Option.isSome_iff_exists.mp this
      simp only [make_image_key, hn, Option.map_some']
      constructor
      · intro h
        obtain ⟨r', hmem, hr'⟩ := (ih _ htail).mp h
        exact ⟨r', List.mem_cons_of_mem _ hmem, hr'⟩
      · rintro ⟨r', hmem, hr'⟩
        rcases List.mem_cons.mp hmem with rfl | hmem'
        · exact absurd h2 hr'
        · exact (ih _ htail).mpr ⟨r', hmem', hr'⟩
    · rw [if_neg h2]
      constructor
      · intro _
        exact ⟨r, List.mem_cons_self r rest, h2⟩
      · intro _
        rfl

lemma stepRow_skipped (w : List Int) (r : List String) (acc : CsvMaps) (a : Int)
    (hc : wfCount r = true) (hs : skipRowOk r = true)
    (h6 : str2int (field r 6) = some a) (hw : w ≠ []) (hna : a ∉ w) :
    stepRow (some w) r acc = .ok acc := by
  simp only [skipRowOk, Bool.and_eq_true, Option.isSome_iff_exists] at hs
  obtain ⟨⟨⟨⟨⟨n1, h1⟩, ⟨b2, h2⟩⟩, ⟨b3, h3⟩⟩, ⟨b4, h4⟩⟩, ⟨b5, h5⟩⟩ := hs
  have hlen : r.length = 7 ∨ r.length = 8 := by
    simp only [wfCount, Bool.or_eq_true, beq_iff_eq] at hc
    exact hc
  simp only [stepRow]
  rw [if_pos hlen]
  simp only [make_image_key, h1, Option.map_some', h2, h3, h4, h5, h6]
  rw [if_pos ((whitelistSkip_true_iff w a).mpr (And.intro hw hna))]

lemma read_csv_aux_drop_skipped (w : List Int) (r : List String) (a : Int)
    (hc : wfCount r = true) (hs : skipRowOk r = true)
    (h6 : str2int (field r 6) = some a) (hw : w ≠ []) (hna : a ∉ w) :
    ∀ (pre post : List (List String)) (acc : CsvMaps),
    read_csv_aux (some w) (pre ++ r :: post) acc =
    read_csv_aux (some w) (pre ++ post) acc := by
  intro pre
  induction pre with
  | nil =>
    intro post acc
    simp only [List.nil_append, read_csv_aux,
      stepRow_skipped w r acc a hc hs h6 hw hna]
  | cons p pre' ih =>
    intro post acc
    simp only [List.cons_append, read_csv_aux]
    cases hp : stepRow (some w) p acc with
    | error e => rfl
    | ok acc' => exact ih post acc'

lemma stepRow_char (cw : Option (List Int)) (r : List String) (acc acc' : CsvMaps)
    (h : stepRow cw r acc = .ok acc') (k : String) :
    acc'.boxes k = acc.boxes k ++ (if keptRow cw k r then [rowBoxD r] else []) ∧
    acc'.labels k = acc.labels k ++ (if keptRow cw k r then [rowLabelD r] else []) ∧
    acc'.scores k = acc.scores k ++ (if keptRow cw k r then [rowScoreD r] else []) := by
  simp only [stepRow] at h
  by_cases hlen : r.length = 7 ∨ r.length = 8
  case neg => rw [if_neg hlen] at h; exact Except.noConfusion h
  rw [if_pos hlen] at h
  cases hik : make_image_key (field r 0) (field r 1) with
  | none => simp only [hik] at h; exact Except.noConfusion h
  | some ik =>
  simp only [hik] at h
  cases h2 : str2float (field r 2) with
  | none => simp only [h2] at h; exact Except.noConfusion h
  | some x1 =>
  simp only [h2] at h
  cases h3 : str2float (field r 3) with
  | none => simp only [h3] at h; exact Except.noConfusion h
  | some y1 =>
  simp only [h3] at h
  cases h4 : str2float (field r 4) with
  | none => simp only [h4] at h; exact Except.noConfusion h
  | some x2 =>
  simp only [h4] at h
  cases h5 : str2float (field r 5) with
  | none => simp only [h5] at h; exact Except.noConfusion h
  | some y2 =>
  simp only [h5] at h
  cases h6 : str2int (field r 6) with
  | none => simp only [h6] at h; exact Except.noConfusion h
  | some a6 =>
  simp only [h6] at h
  by_cases hsk : whitelistSkip cw a6 = true
  · rw [if_pos hsk] at h
    injection h with hh
    subst hh
    have hkf : keptRow cw k r = false := by
      simp only [keptRow, h6, Option.getD_some, hsk, Bool.not_true, Bool.and_false]
    rw [hkf]
    simp
  · rw [if_neg hsk] at h
    have hskf : whitelistSkip cw a6 = false := by
      cases hv : whitelistSkip cw a6
      · rfl
      · exact absurd hv hsk
    have hkr : keptRow cw k r = decide (ik = k) := by
      simp only [keptRow, hik, h6, Option.getD_some, hskf, Bool.not_false,
        Bool.and_true, Option.some.injEq]
    by_cases h8 : r.length = 8
    · rw [if_pos h8] at h
      cases h7 : str2float (field r 7) with
      | none => simp only [h7] at h; exact Except.noConfusion h
      | some sc =>
      simp only [h7] at h
      injection h with hh
      subst hh
      refine ⟨?_, ?_, ?_⟩ <;>
        · simp only [appendAt, hkr, rowBoxD, rowLabelD, rowScoreD,
            h2, h3, h4, h5, h6, h7, h8, if_pos, Option.getD_some]
          by_cases hkk : k = ik
          · subst hkk
            simp
          · have hikk : ¬ik = k := fun hc => hkk hc.symm
            simp [hkk, hikk]
    · rw [if_neg h8] at h
      injection h with hh
      subst hh
      refine ⟨?_, ?_, ?_⟩ <;>
        · simp only [appendAt, hkr, rowBoxD, rowLabelD, rowScoreD,
            h2, h3, h4, h5, h6, h8, Option.getD_some, if_neg]
          by_cases hkk : k = ik
          · subst hkk
            simp
          · have hikk : ¬ik = k := fun hc => hkk hc.symm
            simp [hkk, hikk]

lemma read_csv_aux_char (cw : Option (List Int)) :
    ∀ (rows : List (List String)) (acc : CsvMaps) (m : CsvMaps),
    read_csv_aux cw rows acc = .ok m → ∀ k,
    m.boxes k = acc.boxes k ++ (rows.filter (keptRow cw k)).map rowBoxD ∧
    m.labels k = acc.labels k ++ (rows.filter (keptRow cw k)).map rowLabelD ∧
    m.scores k = acc.scores k ++ (rows.filter (keptRow cw k)).map rowScoreD := by
  intro rows
  induction rows with
  | nil =>
    intro acc m hm k
    simp only [read_csv_aux] at hm
    injection hm with hh
    subst hh
    simp
  | cons r rest ih =>
    intro acc m hm k
    simp only [read_csv_aux] at hm
    cases hs : stepRow cw r acc with
    | error e => simp only [hs] at hm; exact Except.noConfusion hm
    | ok acc' =>
      simp only [hs] at hm
      obtain ⟨hb, hl, hsc⟩ := ih acc' m hm k
      obtain ⟨sb, sl, ss⟩ := stepRow_char cw r acc acc' hs k
      by_cases hkp : keptRow cw k r = true
      · rw [if_pos hkp] at sb sl ss
        refine ⟨?_, ?_, ?_⟩ <;>
          simp [hb, hl, hsc, sb, sl, ss, List.filter_cons, hkp, List.append_assoc]
      · have hkf : keptRow cw k r = false := by
          cases hv : keptRow cw k r
          · rfl
          · exact absurd hv hkp
        rw [if_neg hkp] at sb sl ss
        refine ⟨?_, ?_, ?_⟩ <;>
          simp [hb, hl, hsc, sb, sl, ss, List.filter_cons, hkf]

/-! ### Claim theorems -/

/-- Claim C1, counterexample: a detection row whose MatchKey
(`"v2@9@0.500@0.600@0.700@0.800"`) never appears among the ground-truth keys
does NOT make `confusion_matrix` fail with a missing-key error — the run
completes normally (the matched pair is still tallied), because the main
loop iterates over ground-truth keys and only ever looks detections up. -/
theorem C1_counterexample :
    isKeyError (confusion_matrix
      [["v1", "1", "0.1", "0.2", "0.3", "0.4", "2"]]
      [["v1", "1", "0.1", "0.2", "0.3", "0.4", "2"],
       ["v2", "9", "0.5", "0.6", "0.7", "0.8", "3"]]) = false ∧
    cmEntry
      [["v1", "1", "0.1", "0.2", "0.3", "0.4", "2"]]
      [["v1", "1", "0.1", "0.2", "0.3", "0.4", "2"],
       ["v2", "9", "0.5", "0.6", "0.7", "0.8", "3"]] 1 1 = .ok 2 := by
  decide

/-- Claim C1, amended: the missing-key lookup error runs in the opposite
direction.  Over fully parseable rows with non-negative category ids, a
GROUND-TRUTH MatchKey absent from the detection key set makes
`confusion_matrix` fail with the missing-key error, while runs where every
ground-truth key is covered by the detections complete normally — extra
detection-only keys are silently ignored. -/
theorem C1_amended_direction : ∀ (g d : List (List String)) (gk dk : List String),
    (∀ r ∈ g, wfCmRow r = true) → (∀ r ∈ d, wfCmRow r = true) →
    registerKeys g [] = .ok gk → registerKeys d [] = .ok dk →
    ((∀ k ∈ gk, k ∈ dk) → exceptOk (confusion_matrix g d) = true) ∧
    ((∃ k ∈ gk, k ∉ dk) → isKeyError (confusion_matrix g d) = true) := by
  intro g d gk dk hwg hwd hrg hrd
  obtain ⟨ga, hga, hPg⟩ := appendActs_ok g (fun _ => []) hwg actsOk_empty
  obtain ⟨da, hda, hPd⟩ := appendActs_ok d (fun _ => []) hwd actsOk_empty
  have hcm : confusion_matrix g d = processKeys dk ga da gk zeroCm := by
    simp only [confusion_matrix, hrg, hga, hrd, hda]
  have hsc : ScansOk ga da := by
    intro k
    exact ⟨scanPose_ok (ga k) (fun a ha => hPg k a ha) (-1) (by omega) (by omega),
           scanPose_ok (da k) (fun a ha => hPd k a ha) (-1) (by omega) (by omega)⟩
  constructor
  · intro hall
    obtain ⟨m, hm⟩ := processKeys_ok dk ga da hsc gk zeroCm hall
    rw [hcm, hm]
    rfl
  · intro hex
    rw [hcm]
    exact processKeys_keyError dk ga da hsc gk zeroCm hex

/-- Witness for the amended C1: a ground-truth key (video `"a"`) absent from
the detections (video `"b"`) produces the missing-key failure. -/
theorem C1_witness :
    isKeyError (confusion_matrix
      [["a", "1", "0", "0", "1", "1", "2"]]
      [["b", "1", "0", "0", "1", "1", "2"]]) = true :=
  (C1_amended_direction
    [["a", "1", "0", "0", "1", "1", "2"]]
    [["b", "1", "0", "0", "1", "1", "2"]]
    ["a@1@0.000@0.000@1.000@1.000"] ["b@1@0.000@0.000@1.000@1.000"]
    (by decide) (by decide) (by decide) (by decide)).2
    ⟨"a@1@0.000@0.000@1.000@1.000", by decide, by decide⟩

/-- Claim C2: the pose-band overwrite loop is last-wins — for any act list
(every act parsing to an int), the scan yields the LAST pose-band id minus
one, `-1` when none exists; and on a key whose ground-truth act list is
`["3", "2"]` the matrix tallies the pair at index 1 (last id 2), not at the
positions a first-wins or max-wins policy would produce. -/
theorem C2_last_pose_wins :
    (∀ (acts : List String) (vs : List Int),
      List.Forall₂ (fun a v => str2int a = some v) acts vs →
      scanPose acts (-1) = .ok (lastPose vs)) ∧
    cmEntry [["v", "1", "0", "0", "1", "1", "3"], ["v", "1", "0", "0", "1", "1", "2"]]
      [["v", "1", "0", "0", "1", "1", "2"]] 1 1 = .ok 2 ∧
    cmEntry [["v", "1", "0", "0", "1", "1", "3"], ["v", "1", "0", "0", "1", "1", "2"]]
      [["v", "1", "0", "0", "1", "1", "2"]] 2 1 = .ok 0 ∧
    cmEntry [["v", "1", "0", "0", "1", "1", "3"], ["v", "1", "0", "0", "1", "1", "2"]]
      [["v", "1", "0", "0", "1", "1", "2"]] 1 2 = .ok 0 ∧
    cmEntry [["v", "1", "0", "0", "1", "1", "3"], ["v", "1", "0", "0", "1", "1", "2"]]
      [["v", "1", "0", "0", "1", "1", "2"]] 2 2 = .ok 0 := by
  refine ⟨fun acts vs h => ?_, by decide, by decide, by decide, by decide⟩
  have := scanPose_eq_lastPose h (-1)
  simpa only [lastPose] using this

/-- Witness for C2: the act list `["3", "2"]` scans to pose index 1
(last pose-band id 2, minus one). -/
theorem C2_witness : scanPose ["3", "2"] (-1) = Except.ok 1 := by
  have h := C2_last_pose_wins.1 ["3", "2"] [3, 2]
    (List.Forall₂.cons (by decide) (List.Forall₂.cons (by decide) List.Forall₂.nil))
  rw [h]
  decide

/-- Claim C3: any matrix `confusion_matrix` returns is symmetric, because
each matched pair increments both the (truth, pred) and (pred, truth)
cells. -/
theorem C3_matrix_symmetric : ∀ (g d : List (List String)) (m : Cm),
    confusion_matrix g d = .ok m → ∀ i j : Fin 10, m i j = m j i := by
  intro g d m hm i j
  simp only [confusion_matrix] at hm
  cases h1 : registerKeys g [] with
  | error e => rw [h1] at hm; exact Except.noConfusion hm
  | ok gkeys =>
    rw [h1] at hm
    cases h2 : appendActs g (fun _ => []) with
    | error e => rw [h2] at hm; exact Except.noConfusion hm
    | ok gacts =>
      rw [h2] at hm
      cases h3 : registerKeys d [] with
      | error e => rw [h3] at hm; exact Except.noConfusion hm
      | ok dkeys =>
        rw [h3] at hm
        cases h4 : appendActs d (fun _ => []) with
        | error e => rw [h4] at hm; exact Except.noConfusion hm
        | ok dacts =>
          rw [h4] at hm
          exact processKeys_symm dkeys gacts dacts gkeys zeroCm
            (fun _ _ => rfl) m hm i j

/-- Witness for C3 at a run that produces off-diagonal entries. -/
theorem C3_witness :
    cmEntry [["a", "1", "0", "0", "1", "1", "2"]] [["a", "1", "0", "0", "1", "1", "3"]] 1 2 =
    cmEntry [["a", "1", "0", "0", "1", "1", "2"]] [["a", "1", "0", "0", "1", "1", "3"]] 2 1 := by
  have hok : exceptOk (confusion_matrix [["a", "1", "0", "0", "1", "1", "2"]]
      [["a", "1", "0", "0", "1", "1", "3"]]) = true := by decide
  cases h : confusion_matrix [["a", "1", "0", "0", "1", "1", "2"]]
      [["a", "1", "0", "0", "1", "1", "3"]] with
  | error e => rw [h] at hok; exact Bool.noConfusion hok
  | ok m =>
    simp only [cmEntry, h]
    exact congrArg Except.ok
      (C3_matrix_symmetric [["a", "1", "0", "0", "1", "1", "2"]]
        [["a", "1", "0", "0", "1", "1", "3"]] m h 1 2)

/-- Claim C4, counterexample: with ground truth and detection both resolving
to pose category 2 at the same MatchKey, `matrix[1][1]` ends at 2, not 1 —
the two symmetric increments both land on the same diagonal cell. -/
theorem C4_counterexample :
    cmEntry [["v1", "0002", "0.1", "0.2", "0.3", "0.4", "2"]]
      [["v1", "2", "0.1", "0.2", "0.3", "0.4", "2"]] 1 1 = .ok 2 ∧
    cmEntry [["v1", "0002", "0.1", "0.2", "0.3", "0.4", "2"]]
      [["v1", "2", "0.1", "0.2", "0.3", "0.4", "2"]] 1 1 ≠ .ok 1 := by
  decide

/-- Claim C4, amended: in that scenario the matched key increments
`matrix[1][1]` by exactly 2 (both symmetric increments hit the diagonal
cell), and every other cell stays 0. -/
theorem C4_diagonal_double : ∀ i j : Fin 10,
    cmEntry [["v1", "0002", "0.1", "0.2", "0.3", "0.4", "2"]]
      [["v1", "2", "0.1", "0.2", "0.3", "0.4", "2"]] i j =
    .ok (if i = 1 ∧ j = 1 then 2 else 0) := by
  decide

/-- Claim C5: a 7-field row `"v1,0005,0.1,0.2,0.3,0.4,3"` parses to key
`"v1,0005"`, label 3, default score 1.0, and the box stored with the axes
swapped from the input (x1, y1, x2, y2) = (0.1, 0.2, 0.3, 0.4) to
[y1, x1, y2, x2] = [0.2, 0.1, 0.4, 0.3] (a `Dec` pair ⟨m, e⟩ denotes
m / 10^e, so ⟨2, 1⟩ is 0.2); the 8-field variant instead takes its score
0.9 from the 8th field. -/
theorem C5_parse_scenarios :
    csvBoxesAt [["v1", "0005", "0.1", "0.2", "0.3", "0.4", "3"]] none "v1,0005" =
      .ok [[⟨2, 1⟩, ⟨1, 1⟩, ⟨4, 1⟩, ⟨3, 1⟩]] ∧
    csvLabelsAt [["v1", "0005", "0.1", "0.2", "0.3", "0.4", "3"]] none "v1,0005" =
      .ok [3] ∧
    csvScoresAt [["v1", "0005", "0.1", "0.2", "0.3", "0.4", "3"]] none "v1,0005" =
      .ok [⟨1, 0⟩] ∧
    csvBoxesAt [["v1", "0005", "0.1", "0.2", "0.3", "0.4", "3", "0.9"]] none "v1,0005" =
      .ok [[⟨2, 1⟩, ⟨1, 1⟩, ⟨4, 1⟩, ⟨3, 1⟩]] ∧
    csvScoresAt [["v1", "0005", "0.1", "0.2", "0.3", "0.4", "3", "0.9"]] none "v1,0005" =
      .ok [⟨9, 1⟩] := by
  decide

/-- Claim C6: `make_image_key` depends only on the video id and the parsed
integer timestamp (so it is deterministic and padding-insensitive), renders
the timestamp via `pad4` (4-digit zero-padding), and maps both `"5"` and
`"0005"` for video `"v1"` to the same key `"v1,0005"`. -/
theorem C6_make_image_key :
    (∀ v t t', str2int t = str2int t' → make_image_key v t = make_image_key v t') ∧
    (∀ v t n, str2int t = some n → make_image_key v t = some (v ++ "," ++ pad4 n)) ∧
    make_image_key "v1" "5" = some "v1,0005" ∧
    make_image_key "v1" "0005" = some "v1,0005" := by
  refine ⟨fun v t t' h => ?_, fun v t n h => ?_, by decide, by decide⟩
  · simp only [make_image_key, h]
  · simp only [make_image_key, h, Option.map_some']

/-- Witness for C6: the unpadded and padded spellings of timestamp 7 agree. -/
theorem C6_witness : make_image_key "vX" "7" = make_image_key "vX" "0007" :=
  C6_make_image_key.1 "vX" "7" "0007" (by decide)

/-- Claim C7: row-count validation raises iff the count is wrong — over rows
whose accepted-count members parse, `read_csv` fails with the malformed-row
error exactly when some row has a field count other than 7 or 8, and
`read_exclusions` exactly when some row has a count other than 2; in
particular a 3-field exclusion row is a malformed-row error. -/
theorem C7_row_count_validation :
    (∀ (rows : List (List String)) (cw : Option (List Int)),
      (∀ r ∈ rows, wfCount r = true → parseOkRow r = true) →
      ((read_csv rows cw = .error .wrongColumns) ↔ ∃ r ∈ rows, wfCount r = false)) ∧
    (∀ rows : List (List String),
      (∀ r ∈ rows, r.length = 2 → (str2int (field r 1)).isSome = true) →
      ((read_exclusions (some rows) = .error .wrongColumns) ↔ ∃ r ∈ rows, r.length ≠ 2)) ∧
    read_exclusions (some [["a", "1", "b"]]) = .error .wrongColumns :=
  ⟨fun rows cw hp => read_csv_aux_wrongColumns_iff cw rows emptyMaps hp,
   fun rows hp => read_exclusions_aux_wrongColumns_iff rows [] hp,
   by decide⟩

/-- Witness for C7: a 6-field annotation row aborts with the malformed-row
error. -/
theorem C7_witness :
    read_csv [["v1", "5", "0.1", "0.2", "0.3", "0.4"]] none =
      Except.error PyErr.wrongColumns :=
  (C7_row_count_validation.1 [["v1", "5", "0.1", "0.2", "0.3", "0.4"]] none
    (by decide)).mpr (by decide)

/-- Claim C8: a valid row whose category id misses a non-empty whitelist is
dropped silently — `read_csv` on a row list containing it equals `read_csv`
on the same list without it (no error, no appended box/label/score, and the
surrounding rows are processed unchanged). -/
theorem C8_whitelist_drop :
    ∀ (w : List Int) (pre post : List (List String)) (r : List String) (a : Int),
    wfCount r = true → skipRowOk r = true → str2int (field r 6) = some a →
    w ≠ [] → a ∉ w →
    read_csv (pre ++ r :: post) (some w) = read_csv (pre ++ post) (some w) :=
  fun w pre post r a hc hs h6 hw hna =>
    read_csv_aux_drop_skipped w r a hc hs h6 hw hna pre post emptyMaps

/-- Witness for C8: category 3 against whitelist {5} drops the row, leaving
the result of parsing no rows at all. -/
theorem C8_witness :
    read_csv [["v1", "5", "0.1", "0.2", "0.3", "0.4", "3"]] (some [5]) =
    read_csv [] (some [5]) :=
  C8_whitelist_drop [5] [] [] ["v1", "5", "0.1", "0.2", "0.3", "0.4", "3"] 3
    (by decide) (by decide) (by decide) (by decide) (by decide)

/-- Claim C9: the three maps a successful `read_csv` returns are parallel —
at every key each is the image (box / label / score projection) of the same
filtered row list, so all three sequences have equal length, the keys
present coincide, and position i of each describes the row appended i-th. -/
theorem C9_parallel_maps :
    ∀ (rows : List (List String)) (cw : Option (List Int)) (m : CsvMaps),
    read_csv rows cw = .ok m → ∀ k,
    m.boxes k = (rows.filter (keptRow cw k)).map rowBoxD ∧
    m.labels k = (rows.filter (keptRow cw k)).map rowLabelD ∧
    m.scores k = (rows.filter (keptRow cw k)).map rowScoreD ∧
    (m.boxes k).length = (m.labels k).length ∧
    (m.labels k).length = (m.scores k).length := by
  intro rows cw m hm k
  obtain ⟨hb, hl, hs⟩ := read_csv_aux_char cw rows emptyMaps m hm k
  simp only [emptyMaps, List.nil_append] at hb hl hs
  refine ⟨hb, hl, hs, ?_, ?_⟩ <;> simp [hb, hl, hs]

/-- Witness for C9 on a concrete run. -/
theorem C9_witness :
    csvBoxesAt [["v", "1", "0.1", "0.2", "0.3", "0.4", "2"]] none "v,0001" =
      Except.ok [[⟨2, 1⟩, ⟨1, 1⟩, ⟨4, 1⟩, ⟨3, 1⟩]] := by
  have hok : exceptOk (read_csv [["v", "1", "0.1", "0.2", "0.3", "0.4", "2"]] none) =
      true := by decide
  cases h : read_csv [["v", "1", "0.1", "0.2", "0.3", "0.4", "2"]] none with
  | error e => rw [h] at hok; exact Bool.noConfusion hok
  | ok m =>
    have hp := (C9_parallel_maps [["v", "1", "0.1", "0.2", "0.3", "0.4", "2"]]
      none m h "v,0001").1
    simp only [csvBoxesAt, h]
    rw [hp]
    decide

/-- Claim C10: an empty whitelist set is falsy in Python, so
`read_csv(rows, set())` behaves exactly like `read_csv(rows)` with no
whitelist — nothing is filtered. -/
theorem C10_empty_whitelist_keeps_all :
    ∀ rows : List (List String), read_csv rows (some []) = read_csv rows none :=
  fun rows => read_csv_aux_empty_wl rows emptyMaps

end AvaEval
